import Mathlib

/-!
A shallow embedding of the leaderboard bot's counter store, ranking queries,
TTL/LRU cache, batched writer and service-layer fallback logic, together with
theorems checking the specification's claims against the embedded code.

Tables are embedded as lists of rows; the SQL statements issued by
`database/manager.py` become explicit list transformations; the cache of
`services/cache.py` becomes an ordered association list mirroring Python's
`OrderedDict`; fallible calls are threaded through explicit failure flags or
`Except` values.
-/

/-! ## The `messages` table (`database/manager.py`) -/

structure MessageRow where
  user_id : Nat
  guild_id : Nat
  channel_id : Nat
  count : Nat
  last_updated : Int
deriving DecidableEq

abbrev MessagesTable := List MessageRow

/-- The `WHERE user_id = ? AND guild_id = ?` predicate (the table's primary key). -/
def messageKey (u g : Nat) (r : MessageRow) : Bool :=
  r.user_id == u && r.guild_id == g

/-- `SELECT count FROM messages WHERE user_id = ? AND guild_id = ?` (fetch-one). -/
def selectMessageCount (tbl : MessagesTable) (u g : Nat) : Option Nat :=
  (tbl.find? (messageKey u g)).map (·.count)

/-- `INSERT OR REPLACE INTO messages`: SQLite deletes the row conflicting on the
primary key `(user_id, guild_id)` and inserts the fresh row. -/
def insertOrReplaceMessage (tbl : MessagesTable) (r : MessageRow) : MessagesTable :=
  tbl.filter (fun x => !messageKey r.user_id r.guild_id x) ++ [r]

/-- The SQL queued by `DatabaseManager.increment_message_count`: a replace whose
new count is `COALESCE((SELECT count FROM messages WHERE ...), 0) + 1`. -/
def increment_message_count (tbl : MessagesTable) (u g c : Nat) (now : Int) : MessagesTable :=
  insertOrReplaceMessage tbl
    { user_id := u, guild_id := g, channel_id := c,
      count := (selectMessageCount tbl u g).getD 0 + 1, last_updated := now }

/-- `increment_message_count` applied `n` times for the same `(user, guild)`. -/
def incrementIter (tbl : MessagesTable) (u g c : Nat) (now : Int) : Nat → MessagesTable
  | 0 => tbl
  | n + 1 => increment_message_count (incrementIter tbl u g c now n) u g c now

theorem find?_filter_not_append {α : Type} (p : α → Bool) (l : List α) (a : α)
    (h : p a = true) : (l.filter (fun x => !p x) ++ [a]).find? p = some a := by
  induction l with
  | nil => simp [List.find?, h]
  | cons x xs ih =>
    by_cases hx : p x
    · simpa [List.filter_cons, hx] using ih
    · simpa [List.filter_cons, hx, List.find?_cons, hx] using ih

theorem selectMessageCount_increment (tbl : MessagesTable) (u g c : Nat) (now : Int) :
    selectMessageCount (increment_message_count tbl u g c now) u g
      = some ((selectMessageCount tbl u g).getD 0 + 1) := by
  unfold selectMessageCount increment_message_count insertOrReplaceMessage
  rw [find?_filter_not_append (messageKey u g)]
  · rfl
  · simp [messageKey]

theorem coalesce_incrementIter (tbl : MessagesTable) (u g c : Nat) (now : Int) (n : Nat) :
    (selectMessageCount (incrementIter tbl u g c now n) u g).getD 0
      = (selectMessageCount tbl u g).getD 0 + n := by
  induction n with
  | zero => rfl
  | succ m ih =>
    show (selectMessageCount (increment_message_count (incrementIter tbl u g c now m) u g c now) u g).getD 0 = _
    rw [selectMessageCount_increment, Option.getD_some, ih]
    omega

/-- Claim C1: starting from a table with no `(user_id, guild_id)` row, performing the
increment operation `n` times leaves the stored count at exactly `n` (for `n = 0`
no row exists and the COALESCE-read count is `0`). -/
theorem c1_increment_n_times_yields_n (tbl : MessagesTable) (u g c : Nat) (now : Int)
    (n : Nat) (habsent : selectMessageCount tbl u g = none) :
    (selectMessageCount (incrementIter tbl u g c now n) u g).getD 0 = n ∧
    (n ≠ 0 → selectMessageCount (incrementIter tbl u g c now n) u g = some n) := by
  have hbase : (selectMessageCount tbl u g).getD 0 = 0 := by rw [habsent]; rfl
  constructor
  · rw [coalesce_incrementIter, hbase]; omega
  · intro hn
    obtain ⟨m, rfl⟩ := Nat.exists_eq_succ_of_ne_zero hn
    show selectMessageCount (increment_message_count (incrementIter tbl u g c now m) u g c now) u g = _
    rw [selectMessageCount_increment, coalesce_incrementIter, hbase]
    simp [Nat.succ_eq_add_one]

/-- Witness for C1 at a concrete input: three increments on an empty table store `3`. -/
theorem c1_increment_n_times_yields_n_witness :
    (selectMessageCount (incrementIter [] 1 2 3 100 3) 1 2).getD 0 = 3 ∧
    (3 ≠ 0 → selectMessageCount (incrementIter [] 1 2 3 100 3) 1 2 = some 3) :=
  c1_increment_n_times_yields_n [] 1 2 3 100 3 (by decide)

/-! ## Leaderboard ranking query (`DatabaseManager.get_message_leaderboard`) -/

/-- `ORDER BY count DESC`: a row precedes another when its value is at least as large. -/
def descLe (a b : Nat × Nat) : Prop := b.2 ≤ a.2

instance : DecidableRel descLe := fun a b => inferInstanceAs (Decidable (b.2 ≤ a.2))

instance : IsTotal (Nat × Nat) descLe := ⟨fun a b => Nat.le_total b.2 a.2⟩

instance : IsTrans (Nat × Nat) descLe := ⟨fun _ _ _ h1 h2 => Nat.le_trans h2 h1⟩

/-- `SELECT user_id, count FROM messages WHERE guild_id = ? ORDER BY count DESC LIMIT ?`. -/
def get_message_leaderboard_guild (tbl : MessagesTable) (g : Nat) (limit : Nat) :
    List (Nat × Nat) :=
  (List.insertionSort descLe
    ((tbl.filter (fun r => r.guild_id == g)).map (fun r => (r.user_id, r.count)))).take limit

/-- The distinct user ids of the table, in first-appearance order (`GROUP BY user_id`). -/
def distinctUserIds (tbl : MessagesTable) : List Nat :=
  (tbl.map (·.user_id)).dedup

/-- `SUM(count)` over the group of rows of one user. -/
def sumCounts (tbl : MessagesTable) (u : Nat) : Nat :=
  ((tbl.filter (fun r => r.user_id == u)).map (·.count)).sum

/-- `SELECT user_id, SUM(count) ... GROUP BY user_id ORDER BY total_count DESC LIMIT ?`. -/
def get_message_leaderboard_global (tbl : MessagesTable) (limit : Nat) : List (Nat × Nat) :=
  (List.insertionSort descLe
    ((distinctUserIds tbl).map (fun u => (u, sumCounts tbl u)))).take limit

/-- `DatabaseManager.get_message_leaderboard`: Python's `if guild_id:` sends `None`
and `0` to the global branch. -/
def get_message_leaderboard (tbl : MessagesTable) (gid : Option Nat) (limit : Nat) :
    List (Nat × Nat) :=
  match gid with
  | some g =>
    if g ≠ 0 then get_message_leaderboard_guild tbl g limit
    else get_message_leaderboard_global tbl limit
  | none => get_message_leaderboard_global tbl limit

theorem sorted_take_sortedList {l : List (Nat × Nat)} (h : List.Sorted descLe l) (k : Nat) :
    List.Sorted descLe (l.take k) :=
  List.Pairwise.sublist (List.take_sublist k l) h

/-- Claim C2: for every table state and requested limit, the leaderboard query
returns at most `limit` rows, sorted in descending order of the ranking value. -/
theorem c2_leaderboard_at_most_k_sorted_desc (tbl : MessagesTable) (gid : Option Nat)
    (limit : Nat) :
    (get_message_leaderboard tbl gid limit).length ≤ limit ∧
    List.Sorted descLe (get_message_leaderboard tbl gid limit) := by
  have hlen : ∀ l : List (Nat × Nat), (l.take limit).length ≤ limit := by
    intro l; simp [List.length_take]
  have hglobal := List.sorted_insertionSort descLe
    ((distinctUserIds tbl).map (fun u => (u, sumCounts tbl u)))
  have hform : ∃ l, List.Sorted descLe l ∧ get_message_leaderboard tbl gid limit = l.take limit := by
    match gid with
    | none => exact ⟨_, hglobal, rfl⟩
    | some g =>
      by_cases hg : g ≠ 0
      · exact ⟨_, List.sorted_insertionSort descLe
          ((tbl.filter (fun r => r.guild_id == g)).map (fun r => (r.user_id, r.count))),
          by simp [get_message_leaderboard, hg, get_message_leaderboard_guild]⟩
      · exact ⟨_, hglobal,
          by simp [get_message_leaderboard, hg, get_message_leaderboard_global]⟩
  obtain ⟨l, hs, he⟩ := hform
  rw [he]
  exact ⟨hlen l, sorted_take_sortedList hs limit⟩

/-! ## The `voice` table (`database/manager.py`, `database/models.py`) -/

structure VoiceRow where
  user_id : Nat
  guild_id : Nat
  total_time : Int
  join_time : Option Int
  last_updated : Int
deriving DecidableEq

abbrev VoiceTable := List VoiceRow

/-- The `WHERE user_id = ? AND guild_id = ?` predicate on the `voice` table. -/
def voiceKey (u g : Nat) (r : VoiceRow) : Bool :=
  r.user_id == u && r.guild_id == g

/-- `SELECT ... FROM voice WHERE user_id = ? AND guild_id = ?` (fetch-one). -/
def selectVoice (tbl : VoiceTable) (u g : Nat) : Option VoiceRow :=
  tbl.find? (voiceKey u g)

/-- The SQL queued by `DatabaseManager.update_voice_join`: replace the row, keeping
`total_time = COALESCE((SELECT total_time ...), 0)` and setting `join_time = now`. -/
def update_voice_join (tbl : VoiceTable) (u g : Nat) (now : Int) : VoiceTable :=
  tbl.filter (fun x => !voiceKey u g x) ++
    [{ user_id := u, guild_id := g,
       total_time := ((selectVoice tbl u g).map (·.total_time)).getD 0,
       join_time := some now, last_updated := now }]

/-- `DatabaseManager.update_voice_leave`: read `(join_time, total_time)`; only when the
row exists and `join_time` is truthy (non-NULL and non-zero, after Python's
`if result and result[0]:`) queue `UPDATE voice SET total_time = total_time +
(now - join_time), join_time = NULL`. -/
def update_voice_leave (tbl : VoiceTable) (u g : Nat) (now : Int) : VoiceTable :=
  match selectVoice tbl u g with
  | none => tbl
  | some r =>
    match r.join_time with
    | none => tbl
    | some j =>
      if j = 0 then tbl
      else tbl.map (fun x =>
        if voiceKey u g x then
          { x with total_time := r.total_time + (now - j), join_time := none,
                   last_updated := now }
        else x)

/-- `UserVoiceStats.current_session_time` (`database/models.py`): elapsed seconds of
the open session, `0` when the user is not in voice. -/
def current_session_time (now : Int) (r : VoiceRow) : Int :=
  match r.join_time with
  | some j => now - j
  | none => 0

/-- `UserVoiceStats.total_time_including_current`, which is also the `CASE WHEN
join_time IS NOT NULL THEN total_time + (? - join_time) ELSE total_time END`
expression of `get_voice_leaderboard`. -/
def total_time_including_current (now : Int) (r : VoiceRow) : Int :=
  r.total_time + current_session_time now r

/-- Claim C3: while a session is open the reported total equals
`total_time + (now - join_time)` and is monotone in `now`; the join operation never
advances the accumulated `total_time`; after the leave operation the session is
closed, `total_time` holds the finalized sum, and the reported total freezes. -/
theorem c3_voice_total_invariants (r : VoiceRow) (tbl : VoiceTable) (u g : Nat)
    (j now now1 now2 : Int) (hopen : r.join_time = some j) (hmono : now1 ≤ now2) :
    total_time_including_current now r = r.total_time + (now - j) ∧
    total_time_including_current now1 r ≤ total_time_including_current now2 r ∧
    (((selectVoice (update_voice_join tbl u g now) u g).map (·.total_time)).getD 0
      = ((selectVoice tbl u g).map (·.total_time)).getD 0) ∧
    (∀ s : VoiceRow, s.join_time = none →
      total_time_including_current now s = s.total_time ∧
      total_time_including_current now1 s = total_time_including_current now2 s) ∧
    (∀ s : VoiceRow, selectVoice tbl u g = some s → s.join_time = some j → j ≠ 0 →
      selectVoice (update_voice_leave tbl u g now) u g
        = some { s with total_time := s.total_time + (now - j), join_time := none,
                        last_updated := now } ∧
      (∀ t : Int, total_time_including_current t
          { s with total_time := s.total_time + (now - j), join_time := none,
                   last_updated := now }
        = s.total_time + (now - j))) := by
  refine ⟨?_, ?_, ?_, ?_, ?_⟩
  · simp [total_time_including_current, current_session_time, hopen]
  · simp [total_time_including_current, current_session_time, hopen]
    omega
  · rw [show selectVoice (update_voice_join tbl u g now) u g
        = some { user_id := u, guild_id := g,
                 total_time := ((selectVoice tbl u g).map (·.total_time)).getD 0,
                 join_time := some now, last_updated := now } from ?_]
    · rfl
    · unfold selectVoice update_voice_join
      exact find?_filter_not_append (voiceKey u g) tbl _ (by simp [voiceKey])
  · intro s hs
    simp [total_time_including_current, current_session_time, hs]
  · intro s hsel hsj hj0
    constructor
    · unfold update_voice_leave
      rw [hsel]
      dsimp only
      rw [hsj]
      dsimp only
      rw [if_neg hj0]
      have hsmem : s ∈ tbl := List.mem_of_find?_eq_some hsel
      have hskey : voiceKey u g s = true := List.find?_some hsel
      unfold selectVoice at hsel ⊢
      have hmap : ∀ l : VoiceTable, l.find? (voiceKey u g) = some s →
          (l.map (fun x => if voiceKey u g x then
            { x with total_time := s.total_time + (now - j), join_time := none,
                     last_updated := now } else x)).find? (voiceKey u g)
          = some { s with total_time := s.total_time + (now - j), join_time := none,
                          last_updated := now } := by
        intro l
        induction l with
        | nil => intro h; cases h
        | cons x xs ih =>
          intro h
          by_cases hx : voiceKey u g x = true
          · rw [List.find?_cons_of_pos _ hx] at h
            cases h
            simp only [List.map_cons, hx, if_true]
            rw [List.find?_cons_of_pos]
            simpa [voiceKey] using hskey
          · rw [List.find?_cons_of_neg _ hx] at h
            simp only [List.map_cons, hx, if_false, Bool.false_eq_true]
            rw [List.find?_cons_of_neg _ hx]
            exact ih h
      exact hmap tbl hsel
    · intro t
      simp [total_time_including_current, current_session_time]

/-- Witness for C3 at a concrete input: a row with an open session joined at `10`
with accumulated `total_time = 50`, inspected at times `20 ≤ 30`. -/
theorem c3_voice_total_invariants_witness :
    total_time_including_current 20 ⟨1, 2, 50, some 10, 0⟩
      = (50 : Int) + (20 - 10) ∧
    total_time_including_current 20 ⟨1, 2, 50, some 10, 0⟩
      ≤ total_time_including_current 30 ⟨1, 2, 50, some 10, 0⟩ ∧
    (((selectVoice (update_voice_join [⟨1, 2, 50, some 10, 0⟩] 1 2 20) 1 2).map
        (·.total_time)).getD 0
      = ((selectVoice [(⟨1, 2, 50, some 10, 0⟩ : VoiceRow)] 1 2).map (·.total_time)).getD 0) ∧
    (∀ s : VoiceRow, s.join_time = none →
      total_time_including_current 20 s = s.total_time ∧
      total_time_including_current 20 s = total_time_including_current 30 s) ∧
    (∀ s : VoiceRow, selectVoice [(⟨1, 2, 50, some 10, 0⟩ : VoiceRow)] 1 2 = some s →
      s.join_time = some 10 → (10 : Int) ≠ 0 →
      selectVoice (update_voice_leave [⟨1, 2, 50, some 10, 0⟩] 1 2 20) 1 2
        = some { s with total_time := s.total_time + (20 - 10), join_time := none,
                        last_updated := 20 } ∧
      (∀ t : Int, total_time_including_current t
          { s with total_time := s.total_time + (20 - 10), join_time := none,
                   last_updated := 20 }
        = s.total_time + (20 - 10))) :=
  c3_voice_total_invariants ⟨1, 2, 50, some 10, 0⟩ [⟨1, 2, 50, some 10, 0⟩] 1 2 10 20 20 30
    (by decide) (by decide)

/-! ## TTL/LRU cache (`services/cache.py`) -/

structure CacheEntry (α : Type) where
  value : α
  created_at : Int
  ttl : Option Int
deriving DecidableEq

/-- `CacheEntry.is_expired`: `time.time() > created_at + ttl`, never expired when
`ttl` is `None`. -/
def CacheEntry.is_expired {α : Type} (now : Int) (e : CacheEntry α) : Bool :=
  match e.ttl with
  | none => false
  | some t => now > e.created_at + t

/-- `CacheService` state: `max_size`, `default_ttl` and the `OrderedDict` of entries,
embedded as an insertion-ordered association list (front = least recently used). -/
structure CacheService (α : Type) where
  max_size : Nat
  default_ttl : Int
  entries : List (String × CacheEntry α)
deriving DecidableEq

/-- `OrderedDict.move_to_end`: the entry of `key` moves to the back, the rest keep
their order. -/
def move_to_end {α : Type} (key : String) (l : List (String × CacheEntry α)) :
    List (String × CacheEntry α) :=
  l.filter (fun x => x.1 ≠ key) ++ l.filter (fun x => x.1 = key)

/-- `CacheService._evict_if_needed`: pop the front (least recently used) entry while
the cache holds more than `max_size` entries. -/
def evict_if_needed {α : Type} (max : Nat) : List (String × CacheEntry α) →
    List (String × CacheEntry α)
  | [] => []
  | x :: t => if max < (x :: t).length then evict_if_needed max t else x :: t

/-- `CacheService.get`: miss on absent key; an expired entry is dropped and misses;
a hit moves the key to the back and returns the value. -/
def CacheService.get {α : Type} (c : CacheService α) (now : Int) (key : String) :
    Option α × CacheService α :=
  match c.entries.find? (fun kv => kv.1 = key) with
  | none => (none, c)
  | some kv =>
    if kv.2.is_expired now then
      (none, { c with entries := c.entries.filter (fun x => x.1 ≠ key) })
    else
      (some kv.2.value, { c with entries := move_to_end key c.entries })

/-- `CacheService.set`: the `ttl` argument defaults to `default_ttl`; any old entry of
the key is removed, the fresh entry appended at the back, then eviction runs. -/
def CacheService.set {α : Type} (c : CacheService α) (now : Int) (key : String) (v : α)
    (ttl : Option Int) : CacheService α :=
  let t := ttl.getD c.default_ttl
  let fresh : CacheEntry α := ⟨v, now, some t⟩
  let ents := evict_if_needed c.max_size (c.entries.filter (fun x => x.1 ≠ key) ++ [(key, fresh)])
  { c with entries := ents }

/-- `CacheService.delete`: remove the key when present, reporting whether it was. -/
def CacheService.delete {α : Type} (c : CacheService α) (key : String) :
    Bool × CacheService α :=
  if (c.entries.find? (fun kv => kv.1 = key)).isSome then
    (true, { c with entries := c.entries.filter (fun x => x.1 ≠ key) })
  else (false, c)

/-- `CacheService.clear`: drop every entry. -/
def CacheService.clear {α : Type} (c : CacheService α) : CacheService α :=
  { c with entries := [] }

/-- `CacheService.cleanup_expired`: drop every expired entry, returning the count. -/
def CacheService.cleanup_expired {α : Type} (c : CacheService α) (now : Int) :
    Nat × CacheService α :=
  ((c.entries.filter (fun kv => kv.2.is_expired now)).length,
   { c with entries := c.entries.filter (fun kv => !kv.2.is_expired now) })

/-- `CacheService.refresh`: an absent key fails; an expired entry is dropped and
fails; otherwise `created_at` and `ttl` are renewed and the key moves to the back. -/
def CacheService.refresh {α : Type} (c : CacheService α) (now : Int) (key : String)
    (ttl : Option Int) : Bool × CacheService α :=
  match c.entries.find? (fun kv => kv.1 = key) with
  | none => (false, c)
  | some kv =>
    if kv.2.is_expired now then
      (false, { c with entries := c.entries.filter (fun x => x.1 ≠ key) })
    else
      let renewed := c.entries.map (fun x =>
        if x.1 = key then
          (x.1, { x.2 with created_at := now, ttl := some (ttl.getD c.default_ttl) })
        else x)
      (true, { c with entries := move_to_end key renewed })

theorem evict_if_needed_eq_drop {α : Type} (max : Nat) (l : List (String × CacheEntry α)) :
    evict_if_needed max l = l.drop (l.length - max) := by
  induction l with
  | nil => simp [evict_if_needed]
  | cons x t ih =>
    unfold evict_if_needed
    by_cases h : max < (x :: t).length
    · rw [if_pos h, ih]
      have : (x :: t).length - max = (t.length - max) + 1 := by
        simp only [List.length_cons] at h ⊢; omega
      rw [this, List.drop_succ_cons]
    · rw [if_neg h]
      have : (x :: t).length - max = 0 := by
        simp only [List.length_cons] at h ⊢; omega
      rw [this, List.drop_zero]

theorem evict_if_needed_length_le {α : Type} (max : Nat)
    (l : List (String × CacheEntry α)) : (evict_if_needed max l).length ≤ max := by
  rw [evict_if_needed_eq_drop, List.length_drop]
  omega

theorem find?_append_of_none {α : Type} (p : α → Bool) (l1 l2 : List α)
    (h : ∀ x ∈ l1, p x = false) : (l1 ++ l2).find? p = l2.find? p := by
  induction l1 with
  | nil => rfl
  | cons x t ih =>
    rw [List.cons_append, List.find?_cons_of_neg _ (by simp [h x (List.mem_cons_self x t)]),
      ih (fun y hy => h y (List.mem_cons_of_mem x hy))]

theorem set_find?_fresh {α : Type} (c : CacheService α) (t0 : Int) (k : String) (v : α)
    (ttl : Option Int) (hmax : 1 ≤ c.max_size) :
    (c.set t0 k v ttl).entries.find? (fun kv => kv.1 = k)
      = some (k, ⟨v, t0, some (ttl.getD c.default_ttl)⟩) := by
  unfold CacheService.set
  dsimp only
  rw [evict_if_needed_eq_drop]
  set pre := c.entries.filter (fun x => x.1 ≠ k) with hpre
  set fresh : CacheEntry α := ⟨v, t0, some (ttl.getD c.default_ttl)⟩ with hfresh
  have hlen : (pre ++ [(k, fresh)]).length = pre.length + 1 := by
    simp [List.length_append]
  have hd : (pre ++ [(k, fresh)]).length - c.max_size ≤ pre.length := by omega
  rw [List.drop_append_of_le_length hd]
  rw [find?_append_of_none]
  · rw [List.find?_cons_of_pos _ (by simp)]
  · intro x hx
    have hxpre : x ∈ pre := List.mem_of_mem_drop hx
    have := (List.mem_filter.mp hxpre).2
    simpa using of_decide_eq_true this

/-- Claim C4: after `set`, a `get` of the same key strictly before the entry's TTL has
elapsed returns exactly the stored value, and a `get` strictly after the TTL has
elapsed returns `none` (needs room for at least one entry, `1 ≤ max_size`). -/
theorem c4_cache_set_get_ttl {α : Type} (c : CacheService α) (k : String) (v : α)
    (ttl : Option Int) (t0 t1 : Int) (hmax : 1 ≤ c.max_size) :
    (t1 < t0 + ttl.getD c.default_ttl → ((c.set t0 k v ttl).get t1 k).1 = some v) ∧
    (t0 + ttl.getD c.default_ttl < t1 → ((c.set t0 k v ttl).get t1 k).1 = none) := by
  have hfind := set_find?_fresh c t0 k v ttl hmax
  constructor
  · intro hlt
    have hexp : CacheEntry.is_expired t1
        (⟨v, t0, some (ttl.getD c.default_ttl)⟩ : CacheEntry α) = false := by
      simp only [CacheEntry.is_expired]
      exact decide_eq_false (by omega)
    unfold CacheService.get
    rw [hfind]
    simp [hexp]
  · intro hgt
    have hexp : CacheEntry.is_expired t1
        (⟨v, t0, some (ttl.getD c.default_ttl)⟩ : CacheEntry α) = true := by
      simp only [CacheEntry.is_expired]
      exact decide_eq_true (by omega)
    unfold CacheService.get
    rw [hfind]
    simp [hexp]

/-- Witness for C4 at a concrete input: an empty cache of capacity `2` and default
TTL `300`; a value set at time `0` is returned at time `299` and gone at time `301`. -/
theorem c4_cache_set_get_ttl_witness :
    1 ≤ (2 : Nat) ∧
    ((CacheService.set ⟨2, 300, []⟩ 0 "k" (7 : Nat) none).get 299 "k").1 = some 7 ∧
    ((CacheService.set ⟨2, 300, []⟩ 0 "k" (7 : Nat) none).get 301 "k").1 = none :=
  ⟨by decide,
   (c4_cache_set_get_ttl ⟨2, 300, []⟩ "k" 7 none 0 299 (by decide)).1 (by decide),
   (c4_cache_set_get_ttl ⟨2, 300, []⟩ "k" 7 none 0 301 (by decide)).2 (by decide)⟩

theorem length_move_to_end {α : Type} (key : String) (l : List (String × CacheEntry α)) :
    (move_to_end key l).length = l.length := by
  unfold move_to_end
  induction l with
  | nil => rfl
  | cons x t ih =>
    rw [List.length_append] at ih
    by_cases h : x.1 = key
    · have h1 : decide (x.1 ≠ key) = false := by simp [h]
      have h2 : decide (x.1 = key) = true := by simp [h]
      simp only [List.filter_cons, h1, h2, if_true, Bool.false_eq_true, if_false,
        List.length_append, List.length_cons]
      omega
    · have h1 : decide (x.1 ≠ key) = true := by simp [h]
      have h2 : decide (x.1 = key) = false := by simp [h]
      simp only [List.filter_cons, h1, h2, if_true, Bool.false_eq_true, if_false,
        List.cons_append, List.length_append, List.length_cons]
      omega

/-- Claim C9: every cache operation keeps the entry count at or below `max_size`, and
a `set` of a fresh key on a full cache (with `1 ≤ max_size`) evicts the front
(least recently used) entry: afterwards the key order is the old order minus its
front, with the new key at the back. -/
theorem c9_cache_size_bound_and_lru_eviction {α : Type} (c : CacheService α) (now : Int)
    (k : String) (v : α) (ttl : Option Int) (hsize : c.entries.length ≤ c.max_size) :
    ((c.get now k).2).entries.length ≤ c.max_size ∧
    (c.set now k v ttl).entries.length ≤ c.max_size ∧
    ((c.delete k).2).entries.length ≤ c.max_size ∧
    (c.clear).entries.length ≤ c.max_size ∧
    ((c.cleanup_expired now).2).entries.length ≤ c.max_size ∧
    ((c.refresh now k ttl).2).entries.length ≤ c.max_size ∧
    (c.entries.length = c.max_size → 1 ≤ c.max_size →
      c.entries.find? (fun kv => kv.1 = k) = none →
      (c.set now k v ttl).entries.map Prod.fst = (c.entries.map Prod.fst).drop 1 ++ [k]) := by
  refine ⟨?_, ?_, ?_, ?_, ?_, ?_, ?_⟩
  · unfold CacheService.get
    cases hfind : c.entries.find? (fun kv => kv.1 = k) with
    | none => simpa using hsize
    | some kv =>
      by_cases hexp : kv.2.is_expired now
      · simp only [hexp, if_true]
        exact le_trans (List.length_filter_le _ _) hsize
      · simp only [hexp, Bool.false_eq_true, if_false, length_move_to_end]
        exact hsize
  · unfold CacheService.set
    exact evict_if_needed_length_le _ _
  · unfold CacheService.delete
    by_cases hfind : (c.entries.find? (fun kv => kv.1 = k)).isSome
    · simp only [hfind, if_true]
      exact le_trans (List.length_filter_le _ _) hsize
    · simp only [hfind, Bool.false_eq_true, if_false]
      exact hsize
  · simp [CacheService.clear]
  · unfold CacheService.cleanup_expired
    exact le_trans (List.length_filter_le _ _) hsize
  · unfold CacheService.refresh
    cases hfind : c.entries.find? (fun kv => kv.1 = k) with
    | none => simpa using hsize
    | some kv =>
      by_cases hexp : kv.2.is_expired now
      · simp only [hexp, if_true]
        exact le_trans (List.length_filter_le _ _) hsize
      · simp only [hexp, Bool.false_eq_true, if_false, length_move_to_end, List.length_map]
        exact hsize
  · intro hfull hmax1 hfreshk
    have hpre : c.entries.filter (fun x => x.1 ≠ k) = c.entries := by
      apply List.filter_eq_self.mpr
      intro a ha
      have h2 := List.find?_eq_none.mp hfreshk a ha
      simp at h2 ⊢
      exact h2
    unfold CacheService.set
    dsimp only
    rw [hpre, evict_if_needed_eq_drop]
    have hlen1 : (c.entries ++
        [(k, (⟨v, now, some (ttl.getD c.default_ttl)⟩ : CacheEntry α))]).length - c.max_size = 1 := by
      simp only [List.length_append, List.length_cons, List.length_nil]
      omega
    rw [hlen1, List.drop_append_of_le_length (by omega), List.map_append]
    rw [List.map_drop]
    rfl

/-- Witness for C9 at a concrete input: a full one-slot cache holding `"a"`; setting
the fresh key `"b"` evicts `"a"`, and each operation respects the size bound. -/
theorem c9_cache_size_bound_and_lru_eviction_witness :
    ((CacheService.get ⟨1, 300, [("a", ⟨5, 0, some 300⟩)]⟩ 10 "b").2).entries.length ≤ 1 ∧
    (CacheService.set ⟨1, 300, [("a", ⟨5, 0, some 300⟩)]⟩ 10 "b" (6 : Nat) none).entries.length ≤ 1 ∧
    ((CacheService.delete ⟨1, 300, [("a", ⟨5, 0, some 300⟩)]⟩ "b").2).entries.length ≤ 1 ∧
    (CacheService.clear (⟨1, 300, [("a", ⟨5, 0, some 300⟩)]⟩ : CacheService Nat)).entries.length ≤ 1 ∧
    ((CacheService.cleanup_expired ⟨1, 300, [("a", ⟨5, 0, some 300⟩)]⟩ 10).2).entries.length ≤ 1 ∧
    ((CacheService.refresh ⟨1, 300, [("a", ⟨5, 0, some 300⟩)]⟩ 10 "b" none).2).entries.length ≤ 1 ∧
    (([("a", (⟨5, 0, some 300⟩ : CacheEntry Nat))] : List (String × CacheEntry Nat)).length = 1 →
      1 ≤ 1 →
      ([("a", (⟨5, 0, some 300⟩ : CacheEntry Nat))].find? (fun kv => kv.1 = "b")) = none →
      (CacheService.set ⟨1, 300, [("a", ⟨5, 0, some 300⟩)]⟩ 10 "b" (6 : Nat) none).entries.map Prod.fst
        = ([("a", (⟨5, 0, some 300⟩ : CacheEntry Nat))].map Prod.fst).drop 1 ++ ["b"]) :=
  c9_cache_size_bound_and_lru_eviction ⟨1, 300, [("a", ⟨5, 0, some 300⟩)]⟩ 10 "b" 6 none
    (by decide)

/-! ## Batched writer (`DatabaseManager._execute_batch_operations`) -/

/-- `BatchOperation` (`database/manager.py`): a query string, a list of parameter
tuples, and an operation type tag. Parameter tuples are kept abstract. -/
structure BatchOperation (P : Type) where
  query : String
  params : List P
  operation_type : String
deriving DecidableEq

/-- The grouping key `(op.query, op.operation_type)` of the batch executor. -/
def opKey {P : Type} (op : BatchOperation P) : String × String :=
  (op.query, op.operation_type)

/-- One step of building `grouped_ops`: extend the params of an existing key in
place, or append a new key at the end — exactly Python's dict-with-insertion-order
update `grouped_ops[key].extend(op.params)`. -/
def insertGrouped {P : Type} (acc : List ((String × String) × List P))
    (key : String × String) (ps : List P) : List ((String × String) × List P) :=
  match acc with
  | [] => [(key, ps)]
  | (k, l) :: rest =>
    if k = key then (k, l ++ ps) :: rest else (k, l) :: insertGrouped rest key ps

/-- The `grouped_ops` dictionary built by `_execute_batch_operations` over the
collected operations, as an insertion-ordered association list. -/
def groupOps {P : Type} (ops : List (BatchOperation P)) :
    List ((String × String) × List P) :=
  ops.foldl (fun acc op => insertGrouped acc (opKey op) op.params) []

/-- Lookup of a group's accumulated parameter list, empty when the key is absent. -/
def lookupGroup {P : Type} (acc : List ((String × String) × List P))
    (key : String × String) : List P :=
  ((acc.find? (fun g => g.1 = key)).map (·.2)).getD []

theorem lookupGroup_cons {P : Type} (k : String × String) (l : List P)
    (rest : List ((String × String) × List P)) (key2 : String × String) :
    lookupGroup ((k, l) :: rest) key2
      = if k = key2 then l else lookupGroup rest key2 := by
  unfold lookupGroup
  by_cases h : k = key2
  · rw [List.find?_cons_of_pos _ (by simpa using h), if_pos h]
    rfl
  · rw [List.find?_cons_of_neg _ (by simpa using h), if_neg h]

theorem lookupGroup_insertGrouped {P : Type} (acc : List ((String × String) × List P))
    (key key2 : String × String) (ps : List P) :
    lookupGroup (insertGrouped acc key ps) key2
      = lookupGroup acc key2 ++ (if key2 = key then ps else []) := by
  induction acc with
  | nil =>
    show lookupGroup [(key, ps)] key2 = lookupGroup [] key2 ++ _
    rw [lookupGroup_cons]
    by_cases h : key = key2
    · subst h
      simp [lookupGroup]
    · rw [if_neg h, if_neg (fun hh => h hh.symm)]
      simp [lookupGroup]
  | cons g rest ih =>
    obtain ⟨k, l⟩ := g
    show lookupGroup (if k = key then (k, l ++ ps) :: rest
        else (k, l) :: insertGrouped rest key ps) key2 = _
    by_cases hk : k = key
    · rw [if_pos hk, lookupGroup_cons, lookupGroup_cons]
      by_cases h2 : k = key2
      · rw [if_pos h2, if_pos h2, if_pos (h2.symm.trans hk)]
      · rw [if_neg h2, if_neg h2, if_neg (fun hh => h2 (hk.trans hh.symm))]
        simp
    · rw [if_neg hk, lookupGroup_cons, lookupGroup_cons]
      by_cases h2 : k = key2
      · rw [if_pos h2, if_pos h2, if_neg (fun hh => hk (h2.trans hh))]
        simp
      · rw [if_neg h2, if_neg h2]
        exact ih

theorem keys_insertGrouped {P : Type} (acc : List ((String × String) × List P))
    (key : String × String) (ps : List P) :
    (insertGrouped acc key ps).map Prod.fst
      = if key ∈ acc.map Prod.fst then acc.map Prod.fst else acc.map Prod.fst ++ [key] := by
  induction acc with
  | nil => simp [insertGrouped]
  | cons g rest ih =>
    obtain ⟨k, l⟩ := g
    show (if k = key then (k, l ++ ps) :: rest
        else (k, l) :: insertGrouped rest key ps).map Prod.fst = _
    by_cases hk : k = key
    · subst hk
      simp
    · rw [if_neg hk]
      simp only [List.map_cons, ih]
      by_cases hmem : key ∈ rest.map Prod.fst
      · rw [if_pos hmem, if_pos (List.mem_cons_of_mem k hmem)]
      · rw [if_neg hmem, if_neg ?_]
        · simp
        · intro hin
          rcases List.mem_cons.mp hin with h | h
          · exact hk h.symm
          · exact hmem h

theorem lookupGroup_foldl {P : Type} (ops : List (BatchOperation P))
    (acc : List ((String × String) × List P)) (key : String × String) :
    lookupGroup (ops.foldl (fun a op => insertGrouped a (opKey op) op.params) acc) key
      = lookupGroup acc key
        ++ ((ops.filter (fun op => opKey op = key)).map (·.params)).flatten := by
  induction ops generalizing acc with
  | nil => simp
  | cons op rest ih =>
    rw [List.foldl_cons, ih, lookupGroup_insertGrouped]
    by_cases h : opKey op = key
    · rw [if_pos h.symm, List.filter_cons_of_pos (by simpa using h)]
      simp [List.append_assoc]
    · rw [if_neg (fun hh => h hh.symm), List.filter_cons_of_neg (by simpa using h)]
      simp

theorem keys_nodup_foldl {P : Type} (ops : List (BatchOperation P))
    (acc : List ((String × String) × List P))
    (hacc : (acc.map Prod.fst).Nodup) :
    ((ops.foldl (fun a op => insertGrouped a (opKey op) op.params) acc).map Prod.fst).Nodup := by
  induction ops generalizing acc with
  | nil => exact hacc
  | cons op rest ih =>
    rw [List.foldl_cons]
    apply ih
    rw [keys_insertGrouped]
    by_cases hmem : opKey op ∈ acc.map Prod.fst
    · rwa [if_pos hmem]
    · rw [if_neg hmem]
      simp [List.nodup_append, hacc, hmem]

/-- Claim C8: the batch executor's `grouped_ops` has pairwise-distinct
`(query, operation_type)` keys — so each key is executed in exactly one grouped
`executemany` — and the parameter list accumulated for any key is exactly the
concatenation, in queue order, of the parameter tuples of the operations carrying
that key; hence every queued operation's parameters land in exactly one group. -/
theorem c8_batch_grouped_by_query_and_type {P : Type} (ops : List (BatchOperation P)) :
    ((groupOps ops).map Prod.fst).Nodup ∧
    ∀ key, lookupGroup (groupOps ops) key
      = ((ops.filter (fun op => opKey op = key)).map (·.params)).flatten := by
  constructor
  · exact keys_nodup_foldl ops [] (by simp)
  · intro key
    unfold groupOps
    rw [lookupGroup_foldl]
    simp [lookupGroup]

/-! ## Cache keys of the leaderboard service (`services/leaderboard.py`) -/

theorem digitChar_ne_underscore (n : Nat) : Nat.digitChar n ≠ '_' := by
  by_cases h : n < 16
  · interval_cases n <;> decide
  · have hne : ∀ m : Nat, m < 16 → ¬ n = m := fun m hm heq => by omega
    have hstar : Nat.digitChar n = Char.ofNat 42 := by
      unfold Nat.digitChar
      rw [if_neg (hne 0 (by omega)), if_neg (hne 1 (by omega)), if_neg (hne 2 (by omega)),
        if_neg (hne 3 (by omega)), if_neg (hne 4 (by omega)), if_neg (hne 5 (by omega)),
        if_neg (hne 6 (by omega)), if_neg (hne 7 (by omega)), if_neg (hne 8 (by omega)),
        if_neg (hne 9 (by omega)), if_neg (hne 10 (by omega)), if_neg (hne 11 (by omega)),
        if_neg (hne 12 (by omega)), if_neg (hne 13 (by omega)), if_neg (hne 14 (by omega)),
        if_neg (hne 15 (by omega))]
    rw [hstar]
    decide

theorem toDigitsCore_no_underscore (b : Nat) (fuel n : Nat) (acc : List Char)
    (hacc : ('_' : Char) ∉ acc) : ('_' : Char) ∉ Nat.toDigitsCore b fuel n acc := by
  induction fuel generalizing n acc with
  | zero => exact hacc
  | succ f ih =>
    unfold Nat.toDigitsCore
    have hcons : ('_' : Char) ∉ Nat.digitChar (n % b) :: acc := by
      intro hm
      rcases List.mem_cons.mp hm with h | h
      · exact digitChar_ne_underscore (n % b) h.symm
      · exact hacc h
    by_cases h : n / b = 0
    · simpa [h] using hcons
    · simpa [h] using ih (n / b) (Nat.digitChar (n % b) :: acc) hcons

theorem repr_no_underscore (n : Nat) : ('_' : Char) ∉ (Nat.repr n).data :=
  toDigitsCore_no_underscore 10 (n + 1) n [] (by simp)

/-- The cache keys deleted by `LeaderboardService.track_message` after an increment. -/
def track_message_invalidation_keys (user_id guild_id : Nat) : List String :=
  ["message_leaderboard_" ++ Nat.repr guild_id,
   "message_leaderboard_global",
   "user_message_stats_" ++ Nat.repr user_id ++ "_" ++ Nat.repr guild_id]

/-- The cache key under which `LeaderboardService.get_message_leaderboard` stores its
result: `message_leaderboard_{guild_id or 'global'}_{limit}` — Python's
`guild_id or 'global'` turns `None` and `0` into `"global"`. -/
def message_leaderboard_cache_key (gid : Option Nat) (limit : Nat) : String :=
  "message_leaderboard_"
    ++ (match gid with
        | some g => if g ≠ 0 then Nat.repr g else "global"
        | none => "global")
    ++ "_" ++ Nat.repr limit

/-- `track_message`'s cache invalidation: delete each of its keys in order. -/
def track_message_cache_invalidation {α : Type} (c : CacheService α)
    (user_id guild_id : Nat) : CacheService α :=
  (track_message_invalidation_keys user_id guild_id).foldl
    (fun acc k => (acc.delete k).2) c

theorem no_underscore_ne_append_underscore (p s x t : String)
    (hs : ('_' : Char) ∉ s.data) : p ++ s ≠ p ++ x ++ "_" ++ t := by
  intro heq
  have hd := congrArg String.data heq
  simp only [String.data_append, List.append_assoc] at hd
  have hcancel := List.append_cancel_left hd
  apply hs
  rw [hcancel]
  refine List.mem_append.mpr (Or.inr ?_)
  refine List.mem_append.mpr (Or.inl ?_)
  decide

theorem user_stats_key_ne_leaderboard_key (s1 s2 s3 s4 : String) :
    "user_message_stats_" ++ s1 ++ "_" ++ s2 ≠ "message_leaderboard_" ++ s3 ++ "_" ++ s4 := by
  intro heq
  have hd := congrArg String.data heq
  simp only [String.data_append] at hd
  simp only [List.cons_append] at hd
  injection hd with h1 h2
  exact absurd h1 (by decide)

theorem find?_filter_of_imp {α : Type} (p q : α → Bool) (l : List α)
    (h : ∀ x, p x = true → q x = true) : (l.filter q).find? p = l.find? p := by
  induction l with
  | nil => rfl
  | cons x t ih =>
    by_cases hq : q x = true
    · rw [List.filter_cons_of_pos hq]
      by_cases hp : p x = true
      · rw [List.find?_cons_of_pos _ hp, List.find?_cons_of_pos _ hp]
      · rw [List.find?_cons_of_neg _ (by simpa using hp),
          List.find?_cons_of_neg _ (by simpa using hp)]
        exact ih
    · rw [List.filter_cons_of_neg (by simpa using hq)]
      have hp : ¬ p x = true := fun hpx => hq (h x hpx)
      rw [List.find?_cons_of_neg _ (by simpa using hp)]
      exact ih

theorem delete_preserves_other {α : Type} (c : CacheService α) (k k2 : String)
    (h : k ≠ k2) :
    ((c.delete k).2).entries.find? (fun kv => kv.1 = k2)
      = c.entries.find? (fun kv => kv.1 = k2) := by
  unfold CacheService.delete
  by_cases hfind : (c.entries.find? (fun kv => kv.1 = k)).isSome
  · simp only [hfind, if_true]
    apply find?_filter_of_imp
    intro x hx
    have hxk2 : x.1 = k2 := by simpa using hx
    rw [hxk2]
    exact decide_eq_true (Ne.symm h)
  · simp only [hfind, Bool.false_eq_true, if_false]

/-- Claim C10: each key deleted by `track_message` differs from the key under which
`get_message_leaderboard` caches its result (which carries a `_{limit}` suffix), so
tracking a message leaves the cached leaderboard entry untouched. -/
theorem c10_track_message_never_deletes_cached_leaderboard {α : Type}
    (c : CacheService α) (user_id guild_id : Nat) (gid : Option Nat) (limit : Nat) :
    (∀ k ∈ track_message_invalidation_keys user_id guild_id,
      k ≠ message_leaderboard_cache_key gid limit) ∧
    ((track_message_cache_invalidation c user_id guild_id).entries.find?
        (fun kv => kv.1 = message_leaderboard_cache_key gid limit)
      = c.entries.find? (fun kv => kv.1 = message_leaderboard_cache_key gid limit)) := by
  have hX : ('_' : Char) ∉ (match gid with
      | some g => if g ≠ 0 then Nat.repr g else "global"
      | none => "global" : String).data := by
    match gid with
    | none => decide
    | some g =>
      by_cases hg : g ≠ 0
      · simpa [hg] using repr_no_underscore g
      · simp only [hg, Bool.false_eq_true, if_false]
        decide
  have h1 : "message_leaderboard_" ++ Nat.repr guild_id
      ≠ message_leaderboard_cache_key gid limit := by
    unfold message_leaderboard_cache_key
    exact no_underscore_ne_append_underscore _ _ _ _ (repr_no_underscore guild_id)
  have h2 : ("message_leaderboard_global" : String)
      ≠ message_leaderboard_cache_key gid limit := by
    unfold message_leaderboard_cache_key
    rw [show ("message_leaderboard_global" : String)
        = "message_leaderboard_" ++ "global" from by decide]
    exact no_underscore_ne_append_underscore _ _ _ _ (by decide)
  have h3 : "user_message_stats_" ++ Nat.repr user_id ++ "_" ++ Nat.repr guild_id
      ≠ message_leaderboard_cache_key gid limit := by
    unfold message_leaderboard_cache_key
    exact user_stats_key_ne_leaderboard_key _ _ _ _
  constructor
  · intro k hk
    simp only [track_message_invalidation_keys, List.mem_cons, List.not_mem_nil,
      or_false] at hk
    rcases hk with rfl | rfl | rfl
    · exact h1
    · exact h2
    · exact h3
  · unfold track_message_cache_invalidation track_message_invalidation_keys
    rw [List.foldl_cons, List.foldl_cons, List.foldl_cons, List.foldl_nil]
    exact (delete_preserves_other _ _ _ h3).trans
      ((delete_preserves_other _ _ _ h2).trans (delete_preserves_other _ _ _ h1))

/-! ## Reset (`DatabaseManager.reset_leaderboard_data` and its service caller) -/

structure SettingRow where
  key : String
  value : String
  updated_at : Int
deriving DecidableEq

structure UserCacheRow where
  user_id : Nat
  username : String
  discriminator : String
  cached_at : Int
deriving DecidableEq

/-- The persistent store: the four tables touched by the reset path. -/
structure DBState where
  messages : MessagesTable
  voice : VoiceTable
  user_cache : List UserCacheRow
  settings : List SettingRow
deriving DecidableEq

/-- `DatabaseManager.get_setting`. -/
def get_setting (st : DBState) (k : String) : Option String :=
  (st.settings.find? (fun s => s.key = k)).map (·.value)

/-- `INSERT OR REPLACE INTO settings`. -/
def insert_or_replace_setting (l : List SettingRow) (k v : String) (now : Int) :
    List SettingRow :=
  l.filter (fun s => !decide (s.key = k)) ++ [⟨k, v, now⟩]

/-- `DatabaseManager.reset_leaderboard_data`: four separately-committed queries run
in order — delete all messages, delete all voice rows, delete user-cache rows older
than seven days, record the `last_leaderboard_reset` timestamp. Each call to
`execute_query` may raise (`fi = true`); a raise re-raises out of the method,
leaving the earlier deletions in place. Returns `(success, resulting state)`. -/
def reset_leaderboard_data (f1 f2 f3 f4 : Bool) (now : Int) (st : DBState) :
    Bool × DBState :=
  if f1 then (false, st) else
  let st1 := { st with messages := [] }
  if f2 then (false, st1) else
  let st2 := { st1 with voice := [] }
  if f3 then (false, st2) else
  let st3 := { st2 with user_cache :=
    st2.user_cache.filter (fun r => !decide (r.cached_at < now - 7 * 24 * 3600)) }
  if f4 then (false, st3) else
  let st4 := { st3 with settings :=
    insert_or_replace_setting st3.settings "last_leaderboard_reset" (Int.repr now) now }
  (true, st4)

/-- The reset block of `LeaderboardService.get_message_leaderboard`: run the reset
and, only when it returned (did not raise), clear the whole in-memory cache. -/
def service_reset_and_invalidate {α : Type} (f1 f2 f3 f4 : Bool) (now : Int)
    (st : DBState) (c : CacheService α) : Bool × DBState × CacheService α :=
  let r := reset_leaderboard_data f1 f2 f3 f4 now st
  if r.1 then (true, r.2, c.clear) else (false, r.2, c)

/-- Claim C5 as stated: for every failure behaviour of the four store operations,
the caller observes either the untouched initial state or the fully reset state
(all counters wiped, timestamp recorded, cache emptied) — nothing in between. -/
def reset_atomic_claim : Prop :=
  ∀ (f1 f2 f3 f4 : Bool) (now : Int) (st : DBState) (c : CacheService Nat),
    ((service_reset_and_invalidate f1 f2 f3 f4 now st c).2.1 = st ∧
     (service_reset_and_invalidate f1 f2 f3 f4 now st c).2.2 = c) ∨
    ((service_reset_and_invalidate f1 f2 f3 f4 now st c).2.1.messages = [] ∧
     (service_reset_and_invalidate f1 f2 f3 f4 now st c).2.1.voice = [] ∧
     get_setting (service_reset_and_invalidate f1 f2 f3 f4 now st c).2.1
       "last_leaderboard_reset" = some (Int.repr now) ∧
     (service_reset_and_invalidate f1 f2 f3 f4 now st c).2.2.entries = [])

/-- Counterexample to C5: when the second query (`DELETE FROM voice`) raises, the
messages table is already wiped while the voice table and the stale cache survive —
an observable intermediate state, so the reset is not atomic. -/
theorem c5_counterexample_reset_not_atomic : ¬ reset_atomic_claim := by
  intro h
  exact absurd
    (h false true false false 0
      ⟨[⟨1, 2, 3, 4, 0⟩], [⟨1, 2, 5, none, 0⟩], [], []⟩
      ⟨10, 300, [("stale", ⟨9, 0, some 300⟩)]⟩)
    (by decide)

/-- Claim C5 amended: when every step succeeds the reset wipes both counter tables,
records the last-reset timestamp, and the service clears the whole cache; but the
sequence is not atomic — on any failing step the already-performed deletions persist
and the cache is left untouched (stale). -/
theorem c5_reset_success_clears_all (α : Type) (now : Int) (st : DBState)
    (c : CacheService α) :
    (service_reset_and_invalidate false false false false now st c).1 = true ∧
    (service_reset_and_invalidate false false false false now st c).2.1.messages = [] ∧
    (service_reset_and_invalidate false false false false now st c).2.1.voice = [] ∧
    get_setting (service_reset_and_invalidate false false false false now st c).2.1
      "last_leaderboard_reset" = some (Int.repr now) ∧
    (service_reset_and_invalidate false false false false now st c).2.2.entries = [] ∧
    (∀ f1 f2 f3 f4 : Bool,
      (service_reset_and_invalidate f1 f2 f3 f4 now st c).1 = false →
      (service_reset_and_invalidate f1 f2 f3 f4 now st c).2.2 = c) := by
  refine ⟨rfl, rfl, rfl, ?_, rfl, ?_⟩
  · have hstep : (service_reset_and_invalidate false false false false now st c).2.1.settings
        = st.settings.filter (fun s => !decide (s.key = "last_leaderboard_reset"))
          ++ [⟨"last_leaderboard_reset", Int.repr now, now⟩] := rfl
    unfold get_setting
    rw [hstep, find?_filter_not_append _ _ _ (by simp)]
    rfl
  · intro f1 f2 f3 f4 hfail
    cases f1 <;> cases f2 <;> cases f3 <;> cases f4 <;>
      simp_all [service_reset_and_invalidate, reset_leaderboard_data]

/-- Witness for the amended C5 at a concrete input. -/
theorem c5_reset_success_clears_all_witness :
    (service_reset_and_invalidate false false false false 7
      ⟨[⟨1, 2, 3, 4, 0⟩], [⟨1, 2, 5, none, 0⟩], [], []⟩
      (⟨10, 300, [("stale", ⟨9, 0, some 300⟩)]⟩ : CacheService Nat)).1 = true ∧
    (service_reset_and_invalidate false false false false 7
      ⟨[⟨1, 2, 3, 4, 0⟩], [⟨1, 2, 5, none, 0⟩], [], []⟩
      (⟨10, 300, [("stale", ⟨9, 0, some 300⟩)]⟩ : CacheService Nat)).2.1.messages = [] ∧
    (service_reset_and_invalidate false false false false 7
      ⟨[⟨1, 2, 3, 4, 0⟩], [⟨1, 2, 5, none, 0⟩], [], []⟩
      (⟨10, 300, [("stale", ⟨9, 0, some 300⟩)]⟩ : CacheService Nat)).2.1.voice = [] ∧
    get_setting (service_reset_and_invalidate false false false false 7
      ⟨[⟨1, 2, 3, 4, 0⟩], [⟨1, 2, 5, none, 0⟩], [], []⟩
      (⟨10, 300, [("stale", ⟨9, 0, some 300⟩)]⟩ : CacheService Nat)).2.1
      "last_leaderboard_reset" = some (Int.repr 7) ∧
    (service_reset_and_invalidate false false false false 7
      ⟨[⟨1, 2, 3, 4, 0⟩], [⟨1, 2, 5, none, 0⟩], [], []⟩
      (⟨10, 300, [("stale", ⟨9, 0, some 300⟩)]⟩ : CacheService Nat)).2.2.entries = [] ∧
    (∀ f1 f2 f3 f4 : Bool,
      (service_reset_and_invalidate f1 f2 f3 f4 7
        ⟨[⟨1, 2, 3, 4, 0⟩], [⟨1, 2, 5, none, 0⟩], [], []⟩
        (⟨10, 300, [("stale", ⟨9, 0, some 300⟩)]⟩ : CacheService Nat)).1 = false →
      (service_reset_and_invalidate f1 f2 f3 f4 7
        ⟨[⟨1, 2, 3, 4, 0⟩], [⟨1, 2, 5, none, 0⟩], [], []⟩
        (⟨10, 300, [("stale", ⟨9, 0, some 300⟩)]⟩ : CacheService Nat)).2.2
        = ⟨10, 300, [("stale", ⟨9, 0, some 300⟩)]⟩) :=
  c5_reset_success_clears_all Nat 7
    ⟨[⟨1, 2, 3, 4, 0⟩], [⟨1, 2, 5, none, 0⟩], [], []⟩
    ⟨10, 300, [("stale", ⟨9, 0, some 300⟩)]⟩

/-! ## Service-layer leaderboard read (`LeaderboardService.get_message_leaderboard`) -/

/-- `LeaderboardEntry` (`database/models.py`). -/
structure LeaderboardEntry where
  position : Nat
  user_id : Nat
  username : String
  value : Nat
  formatted_value : String
deriving DecidableEq

/-- Insert thousands separators into a reversed digit string (helper for Python's
format specifier in `f"{count:,}"`). -/
def commaSep : List Char → List Char
  | d1 :: d2 :: d3 :: d4 :: rest => d1 :: d2 :: d3 :: ',' :: commaSep (d4 :: rest)
  | l => l

/-- Python's `f"{count:,}"`: decimal digits grouped in threes by commas. -/
def format_with_commas (n : Nat) : String :=
  List.asString (commaSep (Nat.repr n).data.reverse).reverse

/-- `LeaderboardEntry.create_message_entry`. -/
def create_message_entry (position user_id : Nat) (username : String) (count : Nat) :
    LeaderboardEntry :=
  ⟨position, user_id, username, count, format_with_commas count ++ " messages"⟩

/-- The `enumerate(raw_data, 1)` conversion loop of the service read path. -/
def to_message_entries (rows : List (Nat × Nat)) (username : Nat → String) :
    List LeaderboardEntry :=
  rows.enum.map (fun p => create_message_entry (p.1 + 1) p.2.1 (username p.2.1) p.2.2)

/-- The `try`-block of the service read: a raising database fetch is caught and the
caller receives an empty list; a successful fetch is converted to entries. -/
def service_fetch_branch (fetched : Except Unit (List (Nat × Nat)))
    (username : Nat → String) : Except Unit (List LeaderboardEntry) :=
  match fetched with
  | Except.error _ => Except.ok []
  | Except.ok rows => Except.ok (to_message_entries rows username)

/-- `LeaderboardService.get_message_leaderboard`, with its inputs abstracted: whether
the 30-day reset triggers and whether it raises (its block sits outside the `try`),
the cached value (Python's `if cached:` treats `None` and `[]` alike), and the
database fetch outcome. -/
def service_get_message_leaderboard (should_reset reset_ok : Bool)
    (cached : Option (List LeaderboardEntry))
    (fetched : Except Unit (List (Nat × Nat)))
    (username : Nat → String) : Except Unit (List LeaderboardEntry) :=
  if should_reset && !reset_ok then Except.error () else
  match cached with
  | some l => if l.isEmpty then service_fetch_branch fetched username else Except.ok l
  | none => service_fetch_branch fetched username

/-- Claim C6: on the read path, a database error surfaces to the caller as an empty
leaderboard, not as an exception (given no fresh cached value and no failing
reset write on the way). -/
theorem c6_db_read_error_returns_empty (should_reset reset_ok : Bool)
    (cached : Option (List LeaderboardEntry)) (fetched : Except Unit (List (Nat × Nat)))
    (username : Nat → String)
    (hreset : should_reset = false ∨ reset_ok = true)
    (hcached : cached = none ∨ cached = some [])
    (hfetch : fetched = Except.error ()) :
    service_get_message_leaderboard should_reset reset_ok cached fetched username
      = Except.ok [] := by
  have hcond : (should_reset && !reset_ok) = false := by
    rcases hreset with h | h <;> simp [h]
  unfold service_get_message_leaderboard
  rw [hcond]
  simp only [Bool.false_eq_true, if_false]
  rcases hcached with h | h <;> rw [h] <;> simp [service_fetch_branch, hfetch]

/-- Witness for C6 at a concrete input. -/
theorem c6_db_read_error_returns_empty_witness :
    service_get_message_leaderboard false true none (Except.error ()) (fun _ => "u")
      = Except.ok [] :=
  c6_db_read_error_returns_empty false true none (Except.error ()) (fun _ => "u")
    (Or.inl rfl) (Or.inl rfl) rfl

/-! ## Display-name lookup (`LeaderboardService._get_username`) -/

/-- The name fields of a Discord user object used by the resolution chain. -/
structure DiscordUser where
  global_name : Option String
  display_name : String
  name : String
deriving DecidableEq

/-- Python's `a or b` on strings: the left operand unless it is falsy (empty). -/
def py_or_str (a b : String) : String :=
  if a = "" then b else a

/-- Python's `a or b` with an optional left operand (`None` is falsy). -/
def py_or_opt (a : Option String) (b : String) : String :=
  match a with
  | some s => py_or_str s b
  | none => b

/-- `user.global_name or user.display_name or user.name`. -/
def resolve_display_name (u : DiscordUser) : String :=
  py_or_opt u.global_name (py_or_str u.display_name u.name)

/-- Outcome of `bot.fetch_user`: a user, a `discord.NotFound` (caught by the inner
handler), or any other exception (which escapes to the outer handler). -/
inductive FetchUserResult where
  | found (u : DiscordUser)
  | notFound
  | err
deriving DecidableEq

/-- The database-cache fallback tail of `_get_username`: format a valid cached
name (placeholder names `User {id}` and empty names are rejected). -/
def db_cached_username_branch (cached : Option (String × String)) (user_id : Nat) :
    String :=
  match cached with
  | none => "Unknown User"
  | some (username, discriminator) =>
    if username ≠ "" ∧ username ≠ "User " ++ Nat.repr user_id then
      if discriminator ≠ "" ∧ discriminator ≠ "0" then username ++ "#" ++ discriminator
      else username
    else "Unknown User"

/-- `LeaderboardService._get_username`: live lookup via `bot.get_user`, then
`bot.fetch_user` (only `NotFound` is caught in place; any other exception reaches
the outer handler and yields the placeholder), then the guild-member loop, then the
persisted user cache, then the placeholder. The outer `except` makes the function
total: every outcome is a string, never an exception. -/
def get_username (has_bot : Bool) (get_user : Option DiscordUser)
    (fetch_user : FetchUserResult) (guild_members : List (Option DiscordUser))
    (db_cached : Except Unit (Option (String × String))) (user_id : Nat) : String :=
  if has_bot then
    match get_user with
    | some u => resolve_display_name u
    | none =>
      match fetch_user with
      | FetchUserResult.found u => resolve_display_name u
      | FetchUserResult.err => "Unknown User"
      | FetchUserResult.notFound =>
        match guild_members.findSome? (fun m => m) with
        | some m => resolve_display_name m
        | none =>
          match db_cached with
          | Except.error _ => "Unknown User"
          | Except.ok cached => db_cached_username_branch cached user_id
  else
    match db_cached with
    | Except.error _ => "Unknown User"
    | Except.ok cached => db_cached_username_branch cached user_id

/-- Claim C7 as stated: whenever the live directory lookup fails (in any way), the
lookup falls back to the persisted user cache; a valid cached name is returned. -/
def username_fallback_claim : Prop :=
  ∀ (has_bot : Bool) (get_user : Option DiscordUser) (fetch_user : FetchUserResult)
    (guild_members : List (Option DiscordUser)) (user_id : Nat) (nm disc : String),
    (has_bot = false ∨
      (get_user = none ∧
       (fetch_user = FetchUserResult.notFound ∨ fetch_user = FetchUserResult.err) ∧
       (∀ m ∈ guild_members, m = none))) →
    nm ≠ "" → nm ≠ "User " ++ Nat.repr user_id →
    get_username has_bot get_user fetch_user guild_members
        (Except.ok (some (nm, disc))) user_id
      = (if disc ≠ "" ∧ disc ≠ "0" then nm ++ "#" ++ disc else nm)

/-- Counterexample to C7: when `fetch_user` raises a non-`NotFound` error, the outer
handler returns the placeholder at once and the persisted cache (here holding
`alice`) is never consulted. -/
theorem c7_counterexample_fetch_error_skips_cache : ¬ username_fallback_claim := by
  intro h
  have := h true none FetchUserResult.err [] 1 "alice" "0"
    (Or.inr ⟨rfl, Or.inr rfl, by simp⟩) (by decide) (by decide)
  exact absurd this (by decide)

theorem findSome?_id_none {β : Type} (l : List (Option β)) (h : ∀ m ∈ l, m = none) :
    l.findSome? (fun m => m) = none := by
  induction l with
  | nil => rfl
  | cons x t ih =>
    have hx := h x (List.mem_cons_self x t)
    subst hx
    simpa using ih (fun m hm => h m (List.mem_cons_of_mem _ hm))

/-- Claim C7 amended: the lookup is total (always returns a string, never raising).
When the live lookup completes without finding the user (no bot cache hit,
`fetch_user` raises `NotFound`, no guild member), it falls back to the persisted
cache: a valid cached name is formatted and returned, and a failing or empty cache
read yields the `Unknown User` placeholder. But when the live lookup raises an
unexpected error, the placeholder is returned at once — the cache is not consulted. -/
theorem c7_username_fallback_chain (guild_members : List (Option DiscordUser))
    (user_id : Nat) (nm disc : String)
    (hmembers : ∀ m ∈ guild_members, m = none)
    (hnm : nm ≠ "") (hnmu : nm ≠ "User " ++ Nat.repr user_id) :
    (get_username true none FetchUserResult.notFound guild_members
        (Except.ok (some (nm, disc))) user_id
      = (if disc ≠ "" ∧ disc ≠ "0" then nm ++ "#" ++ disc else nm)) ∧
    (get_username true none FetchUserResult.notFound guild_members
        (Except.error ()) user_id = "Unknown User") ∧
    (get_username true none FetchUserResult.notFound guild_members
        (Except.ok none) user_id = "Unknown User") ∧
    (∀ db_cached : Except Unit (Option (String × String)),
      get_username true none FetchUserResult.err guild_members db_cached user_id
        = "Unknown User") := by
  have hfs := findSome?_id_none guild_members hmembers
  have hvalid : db_cached_username_branch (some (nm, disc)) user_id
      = if disc ≠ "" ∧ disc ≠ "0" then nm ++ "#" ++ disc else nm := by
    by_cases hd : disc ≠ "" ∧ disc ≠ "0"
    · simp [db_cached_username_branch, hnm, hnmu, hd]
    · simp [db_cached_username_branch, hnm, hnmu, hd]
  refine ⟨?_, ?_, ?_, ?_⟩
  · unfold get_username
    rw [if_pos rfl]
    dsimp only
    rw [hfs]
    exact hvalid
  · unfold get_username
    rw [if_pos rfl]
    dsimp only
    rw [hfs]
  · unfold get_username
    rw [if_pos rfl]
    dsimp only
    rw [hfs]
    rfl
  · intro db_cached
    rfl

/-- Witness for the amended C7 at a concrete input: a cached `("alice", "0")`. -/
theorem c7_username_fallback_chain_witness :
    (get_username true none FetchUserResult.notFound [] (Except.ok (some ("alice", "0"))) 1
      = (if ("0" : String) ≠ "" ∧ ("0" : String) ≠ "0" then "alice" ++ "#" ++ "0"
         else "alice")) ∧
    (get_username true none FetchUserResult.notFound [] (Except.error ()) 1
      = "Unknown User") ∧
    (get_username true none FetchUserResult.notFound [] (Except.ok none) 1
      = "Unknown User") ∧
    (∀ db_cached : Except Unit (Option (String × String)),
      get_username true none FetchUserResult.err [] db_cached 1 = "Unknown User") :=
  c7_username_fallback_chain [] 1 "alice" "0" (by simp) (by decide) (by decide)

/-- Witness for C10 at a concrete input: user `1`, guild `2`, a guild-keyed cache
lookup with limit `10`, on a cache holding one leaderboard entry key. -/
theorem c10_track_message_never_deletes_cached_leaderboard_witness :
    (∀ k ∈ track_message_invalidation_keys 1 2,
      k ≠ message_leaderboard_cache_key (some 2) 10) ∧
    ((track_message_cache_invalidation
        (⟨100, 300, [(message_leaderboard_cache_key (some 2) 10, ⟨7, 0, some 300⟩)]⟩ :
          CacheService Nat) 1 2).entries.find?
        (fun kv => kv.1 = message_leaderboard_cache_key (some 2) 10)
      = (⟨100, 300, [(message_leaderboard_cache_key (some 2) 10, ⟨7, 0, some 300⟩)]⟩ :
          CacheService Nat).entries.find?
        (fun kv => kv.1 = message_leaderboard_cache_key (some 2) 10)) :=
  c10_track_message_never_deletes_cached_leaderboard
    ⟨100, 300, [(message_leaderboard_cache_key (some 2) 10, ⟨7, 0, some 300⟩)]⟩ 1 2
    (some 2) 10
